import Mathlib

/-!
Verification of the `keyed` syscall-interception engine (src/keyed.c).

The embedding below translates the trace loop of `main` into a pure step
function `iterate` over an explicit engine state, one application per
child syscall.  Register values are 64-bit naturals; C `int` narrowing is
`toInt32`.  The keystream primitive `crypto_stream_chacha20` is the
libsodium function of that name (original DJB ChaCha20: 8-byte nonce,
64-bit block counter starting at 0), written out in full.
-/

namespace Keyed

/-! ### ChaCha20 (libsodium crypto_stream_chacha20) -/

def M32 : Nat := 4294967296

def rotl (x n : Nat) : Nat := ((x <<< n) ||| (x >>> (32 - n))) % M32

/-- One ChaCha quarter round acting on positions ia ib ic id of a 16-word state. -/
def qr (st : List Nat) (ia ib ic id : Nat) : List Nat :=
  let a := st.getD ia 0
  let b := st.getD ib 0
  let c := st.getD ic 0
  let d := st.getD id 0
  let a := (a + b) % M32
  let d := rotl (d ^^^ a) 16
  let c := (c + d) % M32
  let b := rotl (b ^^^ c) 12
  let a := (a + b) % M32
  let d := rotl (d ^^^ a) 8
  let c := (c + d) % M32
  let b := rotl (b ^^^ c) 7
  (((st.set ia a).set ib b).set ic c).set id d

/-- A ChaCha double round: four column rounds then four diagonal rounds. -/
def doubleRound (st : List Nat) : List Nat :=
  qr (qr (qr (qr (qr (qr (qr (qr st 0 4 8 12) 1 5 9 13) 2 6 10 14)
    3 7 11 15) 0 5 10 15) 1 6 11 12) 2 7 8 13) 3 4 9 14

/-- Little-endian 32-bit word number i of a byte list (missing bytes read as 0,
matching a zero-padded buffer). -/
def leWord (b : List Nat) (i : Nat) : Nat :=
  b.getD (4 * i) 0 + 256 * b.getD (4 * i + 1) 0 +
    65536 * b.getD (4 * i + 2) 0 + 16777216 * b.getD (4 * i + 3) 0

/-- Serialize a 32-bit word to four little-endian bytes. -/
def wordLE (w : Nat) : List Nat :=
  [w % 256, w / 256 % 256, w / 65536 % 256, w / 16777216 % 256]

/-- Initial ChaCha20 block state for the DJB variant: four constants, eight
key words, a 64-bit block counter in words 12 and 13, and two words from the
8-byte nonce. -/
def chachaInit (key nonce : List Nat) (counter : Nat) : List Nat :=
  [1634760805, 857760878, 2036477234, 1797285236] ++
    (List.range 8).map (leWord key) ++
    [counter % M32, counter / M32 % M32] ++
    (List.range 2).map (leWord nonce)

/-- One 64-byte ChaCha20 keystream block (DJB variant). -/
def chachaBlock (key nonce : List Nat) (counter : Nat) : List Nat :=
  let st := chachaInit key nonce counter
  ((List.zipWith (fun a b => (a + b) % M32) st (doubleRound^[10] st)).map wordLE).flatten

/-- libsodium crypto_stream_chacha20: the first clen bytes of the ChaCha20
keystream under the given 8-byte nonce and 32-byte key, block counter
starting at 0.  The C code calls this afresh for every substitution. -/
def crypto_stream_chacha20 (clen : Nat) (nonce key : List Nat) : List Nat :=
  (((List.range (clen / 64 + 1)).map (chachaBlock key nonce)).flatten).take clen

/-- crypto_stream_chacha20_NONCEBYTES in libsodium (the DJB variant). -/
def chacha20_NONCEBYTES : Nat := 8

/-- The nonce of src/keyed.c line 290: an all-zero array of
crypto_stream_chacha20_NONCEBYTES bytes. -/
def nonce : List Nat := List.replicate chacha20_NONCEBYTES 0

/-! ### IETF ChaCha20 variant, for comparison with the spec text -/

/-- Modelled from the spec: initial block state of the IETF ChaCha20 variant
the spec describes, with a 32-bit block counter in word 12 and a twelve-byte
nonce in words 13-15.  Used only to compare the keystream of the source
(eight-byte nonce, 64-bit counter) with the spec wording of a twelve-zero-byte
nonce. -/
def chachaInitIETF (key nonce12 : List Nat) (counter : Nat) : List Nat :=
  [1634760805, 857760878, 2036477234, 1797285236] ++
    (List.range 8).map (leWord key) ++
    [counter % M32] ++
    (List.range 3).map (leWord nonce12)

/-- Modelled from the spec: one 64-byte block of the IETF ChaCha20 variant. -/
def chachaBlockIETF (key nonce12 : List Nat) (counter : Nat) : List Nat :=
  let st := chachaInitIETF key nonce12 counter
  ((List.zipWith (fun a b => (a + b) % M32) st (doubleRound^[10] st)).map wordLE).flatten

/-- Modelled from the spec: the first clen bytes of the IETF ChaCha20
keystream, block counter starting at 0. -/
def chacha20_ietf_stream (clen : Nat) (nonce12 key : List Nat) : List Nat :=
  (((List.range (clen / 64 + 1)).map (chachaBlockIETF key nonce12)).flatten).take clen

/-! ### Register and syscall model (x86-64) -/

def SYS_read : Nat := 0
def SYS_open : Nat := 2
def SYS_close : Nat := 3
def SYS_getpid : Nat := 39
def SYS_exit : Nat := 60
def SYS_exit_group : Nat := 231
def SYS_getrandom : Nat := 318

/-- The registers the trace loop reads: orig_rax (syscall number), the first
three argument registers, and rax (return value), each a 64-bit value. -/
structure Regs where
  orig_rax : Nat
  rdi : Nat
  rsi : Nat
  rdx : Nat
  rax : Nat
deriving DecidableEq, Repr

/-- C conversion of a 64-bit register value to int (two-complement 32-bit). -/
def toInt32 (x : Nat) : Int :=
  let r := x % 4294967296
  if r < 2147483648 then (r : Int) else (r : Int) - 4294967296

/-- A long value stored back into a 64-bit register slot. -/
def toU64 (i : Int) : Nat := (i % 18446744073709551616).toNat

/-- All inputs of one iteration of the trace loop: the entry-stop register
snapshot, the 13 bytes read from the child at the path argument (consulted
only for open), and the rax value the kernel leaves at the exit stop. -/
structure SyscallEvent where
  regs : Regs
  pathWindow : List Nat
  exitRax : Nat
deriving DecidableEq, Repr

/-- Startup configuration: the derived key bytes and fake_pid
(-1 when the -p option is absent). -/
structure Config where
  key : List Nat
  fake_pid : Int
deriving DecidableEq, Repr

/-- Mutable tracer state across iterations: monitor_fd[0..nmonitor) and buflen. -/
structure EngineState where
  monitor : List Int
  buflen : Nat
deriving DecidableEq, Repr

/-- Externally visible actions of one iteration: the PTRACE_SETREGS at the
entry stop (with orig_rax overwritten), the process_vm_writev into the child
(destination address and bytes), and the PTRACE_POKEUSER writes to rax at the
exit stop, in order. -/
structure Effects where
  entryPoke : Option Regs
  write : Option (Nat × List Nat)
  raxPokes : List Nat
deriving DecidableEq, Repr

inductive IterResult where
  | exited : Int → IterResult
  | fatal : IterResult
  | ok : EngineState → Effects → IterResult
deriving DecidableEq, Repr

/-- Bytes of the string /dev/random. -/
def devRandomBytes : List Nat := [47, 100, 101, 118, 47, 114, 97, 110, 100, 111, 109]

/-- Bytes of the string /dev/urandom. -/
def devUrandomBytes : List Nat := [47, 100, 101, 118, 47, 117, 114, 97, 110, 100, 111, 109]

/-- The open-path test of src/keyed.c lines 218-219: memcmp of the 13-byte
window against /dev/random over 12 bytes (terminating NUL included) or
/dev/urandom over 13 bytes. -/
def classifyPath (w : List Nat) : Bool :=
  (w.take 12 == devRandomBytes ++ [0]) || (w.take 13 == devUrandomBytes ++ [0])

/-- The close-handling of src/keyed.c lines 231-238: find the first index
holding fd, overwrite it with the last element, and shrink by one. -/
def removeSwap (fd : Int) (l : List Int) : List Int :=
  match l.findIdx? (· == fd) with
  | none => l
  | some i => (l.set i (l.getLastD 0)).dropLast

/-- The exit-stop half of the loop body (src/keyed.c lines 269-329): disarm
and grow the buffer when size is nonzero, substitute keystream bytes and poke
rax with size, append the returned fd when capture_fd was set, and poke the
fake pid on getpid. -/
def finish (cfg : Config) (s : EngineState) (e : SyscallEvent)
    (dest size : Nat) (capture : Bool) (monitor1 : List Int) : IterResult :=
  let entryPoke : Option Regs :=
    if size ≠ 0 then some { e.regs with orig_rax := 18446744073709551615 } else none
  let buflen2 := if size ≠ 0 ∧ s.buflen < size then size else s.buflen
  let write : Option (Nat × List Nat) :=
    if size ≠ 0 then some (dest, crypto_stream_chacha20 size nonce cfg.key) else none
  let raxAfterSub := if size ≠ 0 then size else e.exitRax
  let pokes1 : List Nat := if size ≠ 0 then [size] else []
  let monitor2 := if capture then monitor1 ++ [toInt32 raxAfterSub] else monitor1
  let pokes2 :=
    if e.regs.orig_rax = SYS_getpid ∧ cfg.fake_pid ≠ -1
    then pokes1 ++ [toU64 cfg.fake_pid] else pokes1
  .ok { monitor := monitor2, buflen := buflen2 }
    { entryPoke := entryPoke, write := write, raxPokes := pokes2 }

/-- One full iteration of the trace loop of src/keyed.c lines 179-330:
classification at the syscall-entry stop followed by `finish`. -/
def iterate (cfg : Config) (s : EngineState) (e : SyscallEvent) : IterResult :=
  let sys := e.regs.orig_rax
  if sys = SYS_exit ∨ sys = SYS_exit_group then
    .exited (toInt32 e.regs.rdi)
  else if sys = SYS_open ∧ classifyPath e.pathWindow = true then
    if s.monitor.length = 16 then .fatal
    else finish cfg s e 0 0 true s.monitor
  else if sys = SYS_close then
    finish cfg s e 0 0 false (removeSwap (toInt32 e.regs.rdi) s.monitor)
  else if sys = SYS_read ∧ toInt32 e.regs.rdi ∈ s.monitor then
    finish cfg s e e.regs.rsi e.regs.rdx false s.monitor
  else if sys = SYS_getrandom then
    finish cfg s e e.regs.rdi e.regs.rsi false s.monitor
  else
    finish cfg s e 0 0 false s.monitor

inductive RunResult where
  | exited : Int → List Effects → RunResult
  | fatal : List Effects → RunResult
  | ok : EngineState → List Effects → RunResult
deriving DecidableEq, Repr

/-- Run the trace loop over a list of syscall events, collecting effects. -/
def run (cfg : Config) (s : EngineState) : List SyscallEvent → RunResult
  | [] => .ok s []
  | e :: es =>
    match iterate cfg s e with
    | .exited c => .exited c []
    | .fatal => .fatal []
    | .ok s1 eff =>
      match run cfg s1 es with
      | .exited c effs => .exited c (eff :: effs)
      | .fatal effs => .fatal (eff :: effs)
      | .ok s2 effs => .ok s2 (eff :: effs)

def runEffects : RunResult → List Effects
  | .exited _ effs => effs
  | .fatal effs => effs
  | .ok _ effs => effs

/-- All bytes delivered into the child by substitutions, in order. -/
def deliveredBytes (effs : List Effects) : List Nat :=
  ((effs.filterMap (fun e => e.write)).map (fun w => w.2)).flatten

/-- The request size the entry stop classifies for an event, as computed by
the switch of src/keyed.c lines 195-266 (0 when nothing is intercepted). -/
def reqSize (s : EngineState) (e : SyscallEvent) : Nat :=
  if e.regs.orig_rax = SYS_getrandom then e.regs.rsi
  else if e.regs.orig_rax = SYS_read ∧ toInt32 e.regs.rdi ∈ s.monitor then e.regs.rdx
  else 0

/-- The destination address recorded with `reqSize`. -/
def reqDest (s : EngineState) (e : SyscallEvent) : Nat :=
  if e.regs.orig_rax = SYS_getrandom then e.regs.rdi
  else if e.regs.orig_rax = SYS_read ∧ toInt32 e.regs.rdi ∈ s.monitor then e.regs.rsi
  else 0

/-- The syscall number the kernel actually sees for this iteration: the poked
value when the entry stop rewrote orig_rax, the original otherwise. -/
def kernelNr (regs : Regs) (eff : Effects) : Nat :=
  match eff.entryPoke with
  | some r => r.orig_rax
  | none => regs.orig_rax

/-- fake_pid from the -p option argument (src/keyed.c line 107):
2 when the option carries no attached argument. -/
def fakePidArg : Option Int → Int
  | none => 2
  | some v => v

/-! ### Trace-level predicates for descriptor tracking -/

/-- An event that the entry stop classifies as an open of an entropy device. -/
def isTrackedOpen (e : SyscallEvent) : Bool :=
  (e.regs.orig_rax == SYS_open) && classifyPath e.pathWindow

/-- The descriptor such an open returns, as read back at the exit stop. -/
def openReturn (e : SyscallEvent) : Int := toInt32 e.exitRax

/-- An event that is a close of the given descriptor. -/
def isCloseOf (e : SyscallEvent) (fd : Int) : Bool :=
  (e.regs.orig_rax == SYS_close) && (toInt32 e.regs.rdi == fd)

/-- No close of fd occurs anywhere in the event list. -/
def noCloseIn (events : List SyscallEvent) (fd : Int) : Bool :=
  events.all (fun e => !isCloseOf e fd)

/-- The property the spec calls descriptor-tracking soundness: some tracked
open in the list returned fd and no close of fd has been observed since. -/
def trackedNoClose : List SyscallEvent → Int → Bool
  | [], _ => false
  | e :: es, fd =>
    (isTrackedOpen e && (openReturn e == fd) && noCloseIn es fd) || trackedNoClose es fd

/-- Kernel-consistency of a trace: every tracked open returns a descriptor
not currently monitored.  Every successful open satisfies this; only a failed
open repeating the same error value can violate it. -/
def FreshRun (cfg : Config) : EngineState → List SyscallEvent → Prop
  | _, [] => True
  | s, e :: es =>
    (isTrackedOpen e = true → openReturn e ∉ s.monitor) ∧
    (match iterate cfg s e with
     | .ok s1 _ => FreshRun cfg s1 es
     | _ => True)

/-- Whether the next event would be answered with substituted bytes. -/
def interceptedNext (cfg : Config) (s : EngineState) (e : SyscallEvent) : Bool :=
  match iterate cfg s e with
  | .ok _ eff => eff.write.isSome
  | _ => false

/-- Whether, after processing a trace, one further event would be substituted. -/
def interceptedAfter (cfg : Config) (s : EngineState)
    (events : List SyscallEvent) (e : SyscallEvent) : Bool :=
  match run cfg s events with
  | .ok s1 _ => interceptedNext cfg s1 e
  | _ => false

/-- The monitored-descriptor set after processing a trace. -/
def monitorAfter (cfg : Config) (s : EngineState)
    (events : List SyscallEvent) : List Int :=
  match run cfg s events with
  | .ok s1 _ => s1.monitor
  | _ => []

/-! ### Concrete fixtures for witnesses and counterexamples -/

def key0 : List Nat := List.replicate 32 0

def cfg0 : Config := { key := key0, fake_pid := -1 }

def cfgP : Config := { key := key0, fake_pid := 2 }

def s0 : EngineState := { monitor := [], buflen := 0 }

def mkRegs (nr a0 a1 a2 : Nat) : Regs :=
  { orig_rax := nr, rdi := a0, rsi := a1, rdx := a2, rax := 0 }

/-- getrandom(buf, n, 0). -/
def evGetrandom (buf n : Nat) : SyscallEvent :=
  { regs := mkRegs SYS_getrandom buf n 0, pathWindow := [], exitRax := 0 }

/-- open with the given 13-byte path window, returning ret in rax. -/
def evOpen (w : List Nat) (ret : Nat) : SyscallEvent :=
  { regs := mkRegs SYS_open 5000 0 0, pathWindow := w, exitRax := ret }

/-- close(fd) with fd supplied as the raw 64-bit rdi value. -/
def evClose (a0 : Nat) : SyscallEvent :=
  { regs := mkRegs SYS_close a0 0 0, pathWindow := [], exitRax := 0 }

/-- read(fd, buf, n) with fd supplied as the raw 64-bit rdi value. -/
def evRead (a0 buf n : Nat) : SyscallEvent :=
  { regs := mkRegs SYS_read a0 buf n, pathWindow := [], exitRax := 0 }

/-- getpid(). -/
def evGetpid : SyscallEvent :=
  { regs := mkRegs SYS_getpid 0 0 0, pathWindow := [], exitRax := 77 }

/-- write(1, buf, n): a syscall the engine never touches. -/
def evWrite (buf n : Nat) : SyscallEvent :=
  { regs := mkRegs 1 1 buf n, pathWindow := [], exitRax := n }

/-- An open of /dev/urandom that fails, with rax = -2 (ENOENT) at exit. -/
def evOpenFail : SyscallEvent :=
  evOpen (devUrandomBytes ++ [0]) 18446744073709551614

/-- The trace refuting the descriptor-soundness claim: two failing opens of
/dev/urandom both tracked as -2, then a close of -2 removing only one copy. -/
def cex5Events : List SyscallEvent :=
  [evOpenFail, evOpenFail, evClose 18446744073709551614]

/-! ### Keystream length -/

theorem length_qr (st : List Nat) (ia ib ic id : Nat) :
    (qr st ia ib ic id).length = st.length := by
  simp [qr]

theorem length_doubleRound (st : List Nat) :
    (doubleRound st).length = st.length := by
  simp [doubleRound, length_qr]

theorem length_doubleRound_iter (n : Nat) (st : List Nat) :
    (doubleRound^[n] st).length = st.length := by
  induction n generalizing st with
  | zero => simp
  | succ n ih => rw [Function.iterate_succ_apply, ih, length_doubleRound]

theorem length_chachaInit (key nn : List Nat) (c : Nat) :
    (chachaInit key nn c).length = 16 := by
  simp [chachaInit]

theorem length_chachaBlock (key nn : List Nat) (c : Nat) :
    (chachaBlock key nn c).length = 64 := by
  unfold chachaBlock
  rw [List.length_flatten, List.map_map]
  have h1 : (List.length ∘ wordLE) = fun _ : Nat => 4 := by
    funext w; simp [wordLE]
  rw [h1, List.map_const', List.sum_replicate, smul_eq_mul,
    List.length_zipWith, length_chachaInit, length_doubleRound_iter,
    length_chachaInit]
  decide

theorem length_crypto_stream (clen : Nat) (nn k : List Nat) :
    (crypto_stream_chacha20 clen nn k).length = clen := by
  unfold crypto_stream_chacha20
  rw [List.length_take, List.length_flatten, List.map_map]
  have h1 : (List.length ∘ chachaBlock k nn) = fun _ : Nat => 64 := by
    funext c; simp [length_chachaBlock]
  rw [h1, List.map_const', List.sum_replicate, smul_eq_mul, List.length_range]
  omega

/-! ### Swap-with-last removal -/

theorem removeSwap_cons_self (fd : Int) (l : List Int) :
    removeSwap fd (fd :: l) = ((fd :: l).getLastD 0 :: l).dropLast := by
  unfold removeSwap
  rw [List.findIdx?_cons]
  simp

theorem removeSwap_cons_of_ne (fd a : Int) (l : List Int) (h : ¬a = fd) :
    removeSwap fd (a :: l) = a :: removeSwap fd l := by
  unfold removeSwap
  rw [List.findIdx?_cons]
  have hb : (a == fd) = false := by simp [h]
  rw [hb, if_neg (by simp), List.findIdx?_succ]
  cases hf : l.findIdx? (· == fd) with
  | none => simp
  | some i =>
    have hlne : l ≠ [] := by rintro rfl; simp at hf
    simp only [Option.map_some']
    have hsetne : l.set i (l.getLastD 0) ≠ [] := by
      intro hset
      exact hlne (List.eq_nil_of_length_eq_zero (by
        simpa [List.length_set] using congrArg List.length hset))
    have hgl : (a :: l).getLastD 0 = l.getLastD 0 := by
      obtain ⟨b, l2, rfl⟩ := List.exists_cons_of_ne_nil hlne
      simp [List.getLastD_cons]
    rw [hgl, List.set_cons_succ, List.dropLast_cons_of_ne_nil hsetne]

theorem cons_last_dropLast_perm (l : List Int) (h : l ≠ []) (d : Int) :
    (l.getLastD d :: l.dropLast).Perm l := by
  have hgl : l.getLastD d = l.getLast h := by
    rw [List.getLastD_eq_getLast?, List.getLast?_eq_getLast l h]
    rfl
  rw [hgl]
  have h2 : (l.getLast h :: l.dropLast).Perm (l.dropLast ++ [l.getLast h]) :=
    (List.perm_append_singleton _ _).symm
  have hconcat : l.dropLast ++ [l.getLast h] = l := List.dropLast_concat_getLast h
  rw [hconcat] at h2
  exact h2

theorem removeSwap_cons_self_perm (fd : Int) (l : List Int) :
    (removeSwap fd (fd :: l)).Perm l := by
  rw [removeSwap_cons_self]
  cases l with
  | nil => simp
  | cons b l2 =>
    have hgl : (fd :: b :: l2).getLastD 0 = (b :: l2).getLastD fd :=
      List.getLastD_cons 0 fd (b :: l2)
    rw [hgl, List.dropLast_cons_of_ne_nil (List.cons_ne_nil b l2)]
    exact cons_last_dropLast_perm (b :: l2) (List.cons_ne_nil b l2) fd

theorem mem_removeSwap_of_nodup (fd x : Int) :
    ∀ l : List Int, l.Nodup → (x ∈ removeSwap fd l ↔ x ∈ l ∧ x ≠ fd) := by
  intro l
  induction l with
  | nil => simp [removeSwap]
  | cons a l ih =>
    intro hnd
    rw [List.nodup_cons] at hnd
    obtain ⟨ha, hl⟩ := hnd
    by_cases hafd : a = fd
    · subst hafd
      rw [(removeSwap_cons_self_perm a l).mem_iff]
      simp only [List.mem_cons]
      constructor
      · intro hx
        exact ⟨Or.inr hx, fun he => ha (he ▸ hx)⟩
      · rintro ⟨hor, hne⟩
        rcases hor with h1 | h1
        · exact absurd h1 hne
        · exact h1
    · rw [removeSwap_cons_of_ne fd a l hafd]
      simp only [List.mem_cons, ih hl]
      constructor
      · rintro (h1 | ⟨h1, h2⟩)
        · exact ⟨Or.inl h1, h1 ▸ hafd⟩
        · exact ⟨Or.inr h1, h2⟩
      · rintro ⟨h1 | h1, h2⟩
        · exact Or.inl h1
        · exact Or.inr ⟨h1, h2⟩

theorem nodup_removeSwap (fd : Int) :
    ∀ l : List Int, l.Nodup → (removeSwap fd l).Nodup := by
  intro l
  induction l with
  | nil => intro _; simp [removeSwap]
  | cons a l ih =>
    intro hnd
    rw [List.nodup_cons] at hnd
    obtain ⟨ha, hl⟩ := hnd
    by_cases hafd : a = fd
    · subst hafd
      exact (removeSwap_cons_self_perm a l).nodup_iff.mpr hl
    · rw [removeSwap_cons_of_ne fd a l hafd, List.nodup_cons]
      refine ⟨fun hmem => ?_, ih hl⟩
      exact ha ((mem_removeSwap_of_nodup fd a l hl).mp hmem).1

theorem length_removeSwap_le (fd : Int) (l : List Int) :
    (removeSwap fd l).length ≤ l.length := by
  unfold removeSwap
  cases hf : l.findIdx? (· == fd) with
  | none => exact le_rfl
  | some i => simp [List.length_dropLast, List.length_set]

/-! ### Characterization of one loop iteration -/

theorem finish_eq (cfg : Config) (s : EngineState) (e : SyscallEvent)
    (dest size : Nat) (capture : Bool) (m1 : List Int) :
    finish cfg s e dest size capture m1 = .ok
      { monitor := if capture = true
          then m1 ++ [toInt32 (if size ≠ 0 then size else e.exitRax)] else m1,
        buflen := if size ≠ 0 ∧ s.buflen < size then size else s.buflen }
      { entryPoke := if size ≠ 0
          then some { e.regs with orig_rax := 18446744073709551615 } else none,
        write := if size ≠ 0
          then some (dest, crypto_stream_chacha20 size nonce cfg.key) else none,
        raxPokes := (if size ≠ 0 then [size] else []) ++
          (if e.regs.orig_rax = SYS_getpid ∧ cfg.fake_pid ≠ -1
            then [toU64 cfg.fake_pid] else []) } := by
  unfold finish
  split_ifs <;> simp_all

theorem iterate_exit (cfg : Config) (s : EngineState) (e : SyscallEvent)
    (h : e.regs.orig_rax = SYS_exit ∨ e.regs.orig_rax = SYS_exit_group) :
    iterate cfg s e = .exited (toInt32 e.regs.rdi) := by
  simp [iterate, h]

theorem iterate_open_full (cfg : Config) (s : EngineState) (e : SyscallEvent)
    (ho : e.regs.orig_rax = SYS_open) (hp : classifyPath e.pathWindow = true)
    (hl : s.monitor.length = 16) :
    iterate cfg s e = .fatal := by
  simp [iterate, ho, hp, hl, SYS_open, SYS_exit, SYS_exit_group]

theorem iterate_open (cfg : Config) (s : EngineState) (e : SyscallEvent)
    (ho : e.regs.orig_rax = SYS_open) (hp : classifyPath e.pathWindow = true)
    (hl : ¬s.monitor.length = 16) :
    iterate cfg s e = finish cfg s e 0 0 true s.monitor := by
  simp [iterate, ho, hp, hl, SYS_open, SYS_exit, SYS_exit_group]

theorem iterate_open_nomatch (cfg : Config) (s : EngineState) (e : SyscallEvent)
    (ho : e.regs.orig_rax = SYS_open) (hp : classifyPath e.pathWindow = false) :
    iterate cfg s e = finish cfg s e 0 0 false s.monitor := by
  simp [iterate, ho, hp, SYS_open, SYS_exit, SYS_exit_group, SYS_close, SYS_read,
    SYS_getrandom]

theorem iterate_close (cfg : Config) (s : EngineState) (e : SyscallEvent)
    (hc : e.regs.orig_rax = SYS_close) :
    iterate cfg s e = finish cfg s e 0 0 false (removeSwap (toInt32 e.regs.rdi) s.monitor) := by
  simp [iterate, hc, SYS_close, SYS_open, SYS_exit, SYS_exit_group]

theorem iterate_read_mem (cfg : Config) (s : EngineState) (e : SyscallEvent)
    (hr : e.regs.orig_rax = SYS_read) (hm : toInt32 e.regs.rdi ∈ s.monitor) :
    iterate cfg s e = finish cfg s e e.regs.rsi e.regs.rdx false s.monitor := by
  simp [iterate, hr, hm, SYS_read, SYS_open, SYS_exit, SYS_exit_group, SYS_close]

theorem iterate_read_notmem (cfg : Config) (s : EngineState) (e : SyscallEvent)
    (hr : e.regs.orig_rax = SYS_read) (hm : toInt32 e.regs.rdi ∉ s.monitor) :
    iterate cfg s e = finish cfg s e 0 0 false s.monitor := by
  simp [iterate, hr, hm, SYS_read, SYS_open, SYS_exit, SYS_exit_group, SYS_close,
    SYS_getrandom]

theorem iterate_getrandom (cfg : Config) (s : EngineState) (e : SyscallEvent)
    (hg : e.regs.orig_rax = SYS_getrandom) :
    iterate cfg s e = finish cfg s e e.regs.rdi e.regs.rsi false s.monitor := by
  simp [iterate, hg, SYS_getrandom, SYS_open, SYS_exit, SYS_exit_group, SYS_close,
    SYS_read]

theorem iterate_other (cfg : Config) (s : EngineState) (e : SyscallEvent)
    (h1 : ¬(e.regs.orig_rax = SYS_exit ∨ e.regs.orig_rax = SYS_exit_group))
    (h2 : ¬(e.regs.orig_rax = SYS_open ∧ classifyPath e.pathWindow = true))
    (h3 : ¬e.regs.orig_rax = SYS_close)
    (h4 : ¬(e.regs.orig_rax = SYS_read ∧ toInt32 e.regs.rdi ∈ s.monitor))
    (h5 : ¬e.regs.orig_rax = SYS_getrandom) :
    iterate cfg s e = finish cfg s e 0 0 false s.monitor := by
  simp [iterate, h1, h2, h3, h4, h5]

theorem iterate_ok_monitor (cfg : Config) (s : EngineState) (e : SyscallEvent)
    (s1 : EngineState) (eff : Effects) (h : iterate cfg s e = .ok s1 eff) :
    (isTrackedOpen e = true ∧ s.monitor.length ≠ 16 ∧
      s1.monitor = s.monitor ++ [openReturn e]) ∨
    (isTrackedOpen e = false ∧ e.regs.orig_rax = SYS_close ∧
      s1.monitor = removeSwap (toInt32 e.regs.rdi) s.monitor) ∨
    (isTrackedOpen e = false ∧ e.regs.orig_rax ≠ SYS_close ∧ s1.monitor = s.monitor) := by
  by_cases hexit : e.regs.orig_rax = SYS_exit ∨ e.regs.orig_rax = SYS_exit_group
  · rw [iterate_exit cfg s e hexit] at h
    exact IterResult.noConfusion h
  by_cases hopen : e.regs.orig_rax = SYS_open ∧ classifyPath e.pathWindow = true
  · by_cases hfull : s.monitor.length = 16
    · rw [iterate_open_full cfg s e hopen.1 hopen.2 hfull] at h
      exact IterResult.noConfusion h
    · rw [iterate_open cfg s e hopen.1 hopen.2 hfull, finish_eq,
        IterResult.ok.injEq] at h
      refine Or.inl ⟨?_, hfull, ?_⟩
      · simp [isTrackedOpen, hopen.1, hopen.2]
      · rw [← h.1]
        simp [openReturn]
  have hnotopen : isTrackedOpen e = false := by
    simp only [isTrackedOpen, Bool.and_eq_false_iff]
    by_cases ho : e.regs.orig_rax = SYS_open
    · right
      rcases Bool.eq_false_or_eq_true (classifyPath e.pathWindow) with hc | hc
      · exact absurd ⟨ho, hc⟩ hopen
      · exact hc
    · left
      simpa using ho
  by_cases hclose : e.regs.orig_rax = SYS_close
  · rw [iterate_close cfg s e hclose, finish_eq, IterResult.ok.injEq] at h
    refine Or.inr (Or.inl ⟨hnotopen, hclose, ?_⟩)
    rw [← h.1]
    simp
  by_cases hread : e.regs.orig_rax = SYS_read ∧ toInt32 e.regs.rdi ∈ s.monitor
  · rw [iterate_read_mem cfg s e hread.1 hread.2, finish_eq, IterResult.ok.injEq] at h
    refine Or.inr (Or.inr ⟨hnotopen, hclose, ?_⟩)
    rw [← h.1]
    simp
  by_cases hrand : e.regs.orig_rax = SYS_getrandom
  · rw [iterate_getrandom cfg s e hrand, finish_eq, IterResult.ok.injEq] at h
    refine Or.inr (Or.inr ⟨hnotopen, hclose, ?_⟩)
    rw [← h.1]
    simp
  · rw [iterate_other cfg s e hexit hopen hclose hread hrand, finish_eq,
      IterResult.ok.injEq] at h
    refine Or.inr (Or.inr ⟨hnotopen, hclose, ?_⟩)
    rw [← h.1]
    simp

theorem orig_of_trackedOpen (e : SyscallEvent) (h : isTrackedOpen e = true) :
    e.regs.orig_rax = SYS_open := by
  simp only [isTrackedOpen, Bool.and_eq_true, beq_iff_eq] at h
  exact h.1

theorem iterate_ok_write (cfg : Config) (s : EngineState) (e : SyscallEvent)
    (sm : EngineState) (eff : Effects) (h : iterate cfg s e = .ok sm eff) :
    eff.write = none ∨
      ∃ d n, eff.write = some (d, crypto_stream_chacha20 n nonce cfg.key) ∧ n ≠ 0 := by
  by_cases hexit : e.regs.orig_rax = SYS_exit ∨ e.regs.orig_rax = SYS_exit_group
  · rw [iterate_exit cfg s e hexit] at h
    exact IterResult.noConfusion h
  by_cases hopen : e.regs.orig_rax = SYS_open ∧ classifyPath e.pathWindow = true
  · by_cases hfull : s.monitor.length = 16
    · rw [iterate_open_full cfg s e hopen.1 hopen.2 hfull] at h
      exact IterResult.noConfusion h
    · rw [iterate_open cfg s e hopen.1 hopen.2 hfull, finish_eq,
        IterResult.ok.injEq] at h
      left
      rw [← h.2]
      simp
  by_cases hclose : e.regs.orig_rax = SYS_close
  · rw [iterate_close cfg s e hclose, finish_eq, IterResult.ok.injEq] at h
    left
    rw [← h.2]
    simp
  by_cases hread : e.regs.orig_rax = SYS_read ∧ toInt32 e.regs.rdi ∈ s.monitor
  · rw [iterate_read_mem cfg s e hread.1 hread.2, finish_eq, IterResult.ok.injEq] at h
    by_cases hz : e.regs.rdx = 0
    · left
      rw [← h.2]
      simp [hz]
    · right
      refine ⟨e.regs.rsi, e.regs.rdx, ?_, hz⟩
      rw [← h.2]
      simp [hz]
  by_cases hrand : e.regs.orig_rax = SYS_getrandom
  · rw [iterate_getrandom cfg s e hrand, finish_eq, IterResult.ok.injEq] at h
    by_cases hz : e.regs.rsi = 0
    · left
      rw [← h.2]
      simp [hz]
    · right
      refine ⟨e.regs.rdi, e.regs.rsi, ?_, hz⟩
      rw [← h.2]
      simp [hz]
  · rw [iterate_other cfg s e hexit hopen hclose hread hrand, finish_eq,
      IterResult.ok.injEq] at h
    left
    rw [← h.2]
    simp

theorem run_cons_exited (cfg : Config) (s : EngineState) (e : SyscallEvent)
    (es : List SyscallEvent) (c : Int) (hit : iterate cfg s e = .exited c) :
    run cfg s (e :: es) = .exited c [] := by
  simp only [run, hit]

theorem run_cons_fatal (cfg : Config) (s : EngineState) (e : SyscallEvent)
    (es : List SyscallEvent) (hit : iterate cfg s e = .fatal) :
    run cfg s (e :: es) = .fatal [] := by
  simp only [run, hit]

theorem run_cons_ok (cfg : Config) (s : EngineState) (e : SyscallEvent)
    (es : List SyscallEvent) (sm : EngineState) (eff : Effects)
    (hit : iterate cfg s e = .ok sm eff) :
    run cfg s (e :: es) =
      (match run cfg sm es with
        | .exited c effs => .exited c (eff :: effs)
        | .fatal effs => .fatal (eff :: effs)
        | .ok s2 effs => .ok s2 (eff :: effs)) := by
  simp only [run, hit]

/-! ### Run-level invariants -/

theorem run_monitor_le (cfg : Config) :
    ∀ (events : List SyscallEvent) (s s1 : EngineState) (effs : List Effects),
      s.monitor.length ≤ 16 → run cfg s events = .ok s1 effs →
      s1.monitor.length ≤ 16 := by
  intro events
  induction events with
  | nil =>
    intro s s1 effs hle hrun
    simp only [run, RunResult.ok.injEq] at hrun
    rw [← hrun.1]
    exact hle
  | cons e es ih =>
    intro s s1 effs hle hrun
    cases hit : iterate cfg s e with
    | exited c =>
      rw [run_cons_exited cfg s e es c hit] at hrun
      exact RunResult.noConfusion hrun
    | fatal =>
      rw [run_cons_fatal cfg s e es hit] at hrun
      exact RunResult.noConfusion hrun
    | ok sm eff =>
      rw [run_cons_ok cfg s e es sm eff hit] at hrun
      cases hr2 : run cfg sm es with
      | exited c effs2 =>
        simp only [hr2] at hrun
        exact RunResult.noConfusion hrun
      | fatal effs2 =>
        simp only [hr2] at hrun
        exact RunResult.noConfusion hrun
      | ok s2 effs2 =>
        simp only [hr2] at hrun
        rw [RunResult.ok.injEq] at hrun
        have hsm : sm.monitor.length ≤ 16 := by
          rcases iterate_ok_monitor cfg s e sm eff hit with
            ⟨_, hne, hmon⟩ | ⟨_, _, hmon⟩ | ⟨_, _, hmon⟩
          · rw [hmon]
            simp only [List.length_append, List.length_singleton]
            omega
          · rw [hmon]
            exact le_trans (length_removeSwap_le _ _) hle
          · rw [hmon]
            exact hle
        rw [← hrun.1]
        exact ih sm s2 effs2 hsm hr2

theorem run_writes (cfg : Config) :
    ∀ (events : List SyscallEvent) (s : EngineState) (eff : Effects),
      eff ∈ runEffects (run cfg s events) →
      eff.write = none ∨
        ∃ d n, eff.write = some (d, crypto_stream_chacha20 n nonce cfg.key) ∧ n ≠ 0 := by
  intro events
  induction events with
  | nil =>
    intro s eff hmem
    simp [run, runEffects] at hmem
  | cons e es ih =>
    intro s eff hmem
    cases hit : iterate cfg s e with
    | exited c =>
      rw [run_cons_exited cfg s e es c hit] at hmem
      simp [runEffects] at hmem
    | fatal =>
      rw [run_cons_fatal cfg s e es hit] at hmem
      simp [runEffects] at hmem
    | ok sm eff0 =>
      rw [run_cons_ok cfg s e es sm eff0 hit] at hmem
      have ih2 := ih sm eff
      cases hr2 : run cfg sm es with
      | exited c effs2 =>
        simp only [hr2] at hmem
        rw [hr2] at ih2
        simp only [runEffects, List.mem_cons] at hmem ih2
        rcases hmem with rfl | hmem
        · exact iterate_ok_write cfg s e sm eff hit
        · exact ih2 hmem
      | fatal effs2 =>
        simp only [hr2] at hmem
        rw [hr2] at ih2
        simp only [runEffects, List.mem_cons] at hmem ih2
        rcases hmem with rfl | hmem
        · exact iterate_ok_write cfg s e sm eff hit
        · exact ih2 hmem
      | ok s2 effs2 =>
        simp only [hr2] at hmem
        rw [hr2] at ih2
        simp only [runEffects, List.mem_cons] at hmem ih2
        rcases hmem with rfl | hmem
        · exact iterate_ok_write cfg s e sm eff hit
        · exact ih2 hmem

set_option maxHeartbeats 1000000 in
theorem run_monitor_mem (cfg : Config) :
    ∀ (events : List SyscallEvent) (s s1 : EngineState) (effs : List Effects),
      s.monitor.Nodup → FreshRun cfg s events → run cfg s events = .ok s1 effs →
      s1.monitor.Nodup ∧
        ∀ fd : Int, (fd ∈ s1.monitor ↔
          (trackedNoClose events fd = true ∨
            (fd ∈ s.monitor ∧ noCloseIn events fd = true))) := by
  intro events
  induction events with
  | nil =>
    intro s s1 effs hnd hfr hrun
    simp only [run, RunResult.ok.injEq] at hrun
    rw [← hrun.1]
    refine ⟨hnd, fun fd => ?_⟩
    simp [trackedNoClose, noCloseIn]
  | cons e es ih =>
    intro s s1 effs hnd hfr hrun
    cases hit : iterate cfg s e with
    | exited c =>
      rw [run_cons_exited cfg s e es c hit] at hrun
      exact RunResult.noConfusion hrun
    | fatal =>
      rw [run_cons_fatal cfg s e es hit] at hrun
      exact RunResult.noConfusion hrun
    | ok sm eff =>
      rw [run_cons_ok cfg s e es sm eff hit] at hrun
      have hfr1 : isTrackedOpen e = true → openReturn e ∉ s.monitor := by
        simp only [FreshRun] at hfr
        exact hfr.1
      have hfr2 : FreshRun cfg sm es := by
        simp only [FreshRun, hit] at hfr
        exact hfr.2
      cases hr2 : run cfg sm es with
      | exited c effs2 =>
        simp only [hr2] at hrun
        exact RunResult.noConfusion hrun
      | fatal effs2 =>
        simp only [hr2] at hrun
        exact RunResult.noConfusion hrun
      | ok s2 effs2 =>
        simp only [hr2] at hrun
        rw [RunResult.ok.injEq] at hrun
        obtain ⟨h1, _⟩ := hrun
        subst h1
        rcases iterate_ok_monitor cfg s e sm eff hit with
          ⟨htr, hne, hmon⟩ | ⟨htr, hcl, hmon⟩ | ⟨htr, hcl, hmon⟩
        · -- a tracked open appends its returned descriptor
          have hv : openReturn e ∉ s.monitor := hfr1 htr
          have hndm : sm.monitor.Nodup := by
            rw [hmon, (List.perm_append_singleton (openReturn e) s.monitor).nodup_iff]
            exact List.nodup_cons.mpr ⟨hv, hnd⟩
          obtain ⟨hnd1, hmem1⟩ := ih sm s2 effs2 hndm hfr2 hr2
          refine ⟨hnd1, fun fd => ?_⟩
          have horig : e.regs.orig_rax = SYS_open := orig_of_trackedOpen e htr
          have hclosef : isCloseOf e fd = false := by
            simp [isCloseOf, horig, SYS_open, SYS_close]
          have hTNC : trackedNoClose (e :: es) fd = true ↔
              ((openReturn e = fd ∧ noCloseIn es fd = true) ∨
                trackedNoClose es fd = true) := by
            simp [trackedNoClose, htr]
          have hNC : noCloseIn (e :: es) fd = true ↔ noCloseIn es fd = true := by
            simp [noCloseIn, List.all_cons, hclosef]
          have hMem : fd ∈ sm.monitor ↔ (fd ∈ s.monitor ∨ openReturn e = fd) := by
            rw [hmon]
            simp only [List.mem_append, List.mem_singleton]
            exact or_congr Iff.rfl eq_comm
          rw [hmem1 fd, hTNC, hNC, hMem]
          tauto
        · -- a close removes the descriptor
          have hndm : sm.monitor.Nodup := by
            rw [hmon]
            exact nodup_removeSwap _ _ hnd
          obtain ⟨hnd1, hmem1⟩ := ih sm s2 effs2 hndm hfr2 hr2
          refine ⟨hnd1, fun fd => ?_⟩
          have hTNC : trackedNoClose (e :: es) fd = true ↔
              trackedNoClose es fd = true := by
            simp [trackedNoClose, htr]
          have hNC : noCloseIn (e :: es) fd = true ↔
              (¬(toInt32 e.regs.rdi = fd) ∧ noCloseIn es fd = true) := by
            simp [noCloseIn, List.all_cons, isCloseOf, hcl, SYS_close]
          have hMem : fd ∈ sm.monitor ↔
              (fd ∈ s.monitor ∧ ¬(toInt32 e.regs.rdi = fd)) := by
            rw [hmon]
            exact (mem_removeSwap_of_nodup _ fd s.monitor hnd).trans
              (and_congr_right fun _ => ne_comm)
          rw [hmem1 fd, hTNC, hNC, hMem]
          tauto
        · -- any other syscall leaves the monitor set unchanged
          have hndm : sm.monitor.Nodup := by
            rw [hmon]
            exact hnd
          obtain ⟨hnd1, hmem1⟩ := ih sm s2 effs2 hndm hfr2 hr2
          refine ⟨hnd1, fun fd => ?_⟩
          have hclosef : isCloseOf e fd = false := by
            simp [isCloseOf, hcl]
          have hTNC : trackedNoClose (e :: es) fd = true ↔
              trackedNoClose es fd = true := by
            simp [trackedNoClose, htr]
          have hNC : noCloseIn (e :: es) fd = true ↔ noCloseIn es fd = true := by
            simp [noCloseIn, List.all_cons, hclosef]
          have hMem : fd ∈ sm.monitor ↔ fd ∈ s.monitor := by
            rw [hmon]
          rw [hmem1 fd, hTNC, hNC, hMem]
theorem interceptedNext_read (cfg : Config) (s : EngineState) (e : SyscallEvent)
    (hr : e.regs.orig_rax = SYS_read) :
    interceptedNext cfg s e = true ↔
      (toInt32 e.regs.rdi ∈ s.monitor ∧ e.regs.rdx ≠ 0) := by
  by_cases hm : toInt32 e.regs.rdi ∈ s.monitor
  · unfold interceptedNext
    rw [iterate_read_mem cfg s e hr hm, finish_eq]
    by_cases hz : e.regs.rdx = 0 <;> simp [hm, hz]
  · unfold interceptedNext
    rw [iterate_read_notmem cfg s e hr hm, finish_eq]
    simp [hm]

theorem reqSize_pos_cases (s : EngineState) (e : SyscallEvent) (h : 0 < reqSize s e) :
    (e.regs.orig_rax = SYS_getrandom ∧ reqSize s e = e.regs.rsi ∧
      reqDest s e = e.regs.rdi) ∨
    (e.regs.orig_rax = SYS_read ∧ toInt32 e.regs.rdi ∈ s.monitor ∧
      reqSize s e = e.regs.rdx ∧ reqDest s e = e.regs.rsi) := by
  by_cases h1 : e.regs.orig_rax = SYS_getrandom
  · exact Or.inl ⟨h1, by simp [reqSize, h1], by simp [reqDest, h1]⟩
  by_cases h2 : e.regs.orig_rax = SYS_read ∧ toInt32 e.regs.rdi ∈ s.monitor
  · exact Or.inr ⟨h2.1, h2.2,
      by simp [reqSize, h2.1, h2.2, SYS_read, SYS_getrandom],
      by simp [reqDest, h2.1, h2.2, SYS_read, SYS_getrandom]⟩
  · exfalso
    simp [reqSize, h1, h2] at h

theorem iterate_substitutes (cfg : Config) (s : EngineState) (e : SyscallEvent)
    (h : 0 < reqSize s e) :
    iterate cfg s e = .ok
      { monitor := s.monitor,
        buflen := if s.buflen < reqSize s e then reqSize s e else s.buflen }
      { entryPoke := some { e.regs with orig_rax := 18446744073709551615 },
        write := some (reqDest s e, crypto_stream_chacha20 (reqSize s e) nonce cfg.key),
        raxPokes := [reqSize s e] } := by
  rcases reqSize_pos_cases s e h with ⟨h1, hs, hd⟩ | ⟨h1, hm, hs, hd⟩
  · rw [iterate_getrandom cfg s e h1, finish_eq]
    rw [hs] at h
    have hz : e.regs.rsi ≠ 0 := by omega
    simp [hz, h1, SYS_getrandom, SYS_getpid, hs, hd]
  · rw [iterate_read_mem cfg s e h1 hm, finish_eq]
    rw [hs] at h
    have hz : e.regs.rdx ≠ 0 := by omega
    simp [hz, h1, SYS_read, SYS_getpid, hs, hd]

theorem iterate_zero_request (cfg : Config) (s : EngineState) (e : SyscallEvent)
    (h : (e.regs.orig_rax = SYS_getrandom ∧ e.regs.rsi = 0) ∨
      (e.regs.orig_rax = SYS_read ∧ toInt32 e.regs.rdi ∈ s.monitor ∧ e.regs.rdx = 0)) :
    iterate cfg s e = .ok s { entryPoke := none, write := none, raxPokes := [] } := by
  rcases h with ⟨h1, hz⟩ | ⟨h1, hm, hz⟩
  · rw [iterate_getrandom cfg s e h1, finish_eq]
    simp [hz, h1, SYS_getrandom, SYS_getpid]
  · rw [iterate_read_mem cfg s e h1 hm, finish_eq]
    simp [hz, h1, SYS_read, SYS_getpid]

theorem iterate_getpid (cfg : Config) (s : EngineState) (e : SyscallEvent)
    (hg : e.regs.orig_rax = SYS_getpid) (hp : cfg.fake_pid ≠ -1) :
    iterate cfg s e = .ok s
      { entryPoke := none, write := none, raxPokes := [toU64 cfg.fake_pid] } := by
  rw [iterate_other cfg s e (by simp [hg, SYS_getpid, SYS_exit, SYS_exit_group])
    (by simp [hg, SYS_getpid, SYS_open]) (by simp [hg, SYS_getpid, SYS_close])
    (by simp [hg, SYS_getpid, SYS_read]) (by simp [hg, SYS_getpid, SYS_getrandom]),
    finish_eq]
  simp [hg, hp]

theorem iterate_fakePid_irrel (key : List Nat) (p : Int) (s : EngineState)
    (e : SyscallEvent) (h : ¬e.regs.orig_rax = SYS_getpid) :
    iterate { key := key, fake_pid := p } s e =
      iterate { key := key, fake_pid := (-1 : Int) } s e := by
  have hfin : ∀ (dest size : Nat) (capture : Bool) (m1 : List Int),
      finish { key := key, fake_pid := p } s e dest size capture m1 =
        finish { key := key, fake_pid := (-1 : Int) } s e dest size capture m1 := by
    intro dest size capture m1
    rw [finish_eq, finish_eq]
    simp [h]
  by_cases h1 : e.regs.orig_rax = SYS_exit ∨ e.regs.orig_rax = SYS_exit_group
  · rw [iterate_exit _ s e h1, iterate_exit _ s e h1]
  by_cases h2 : e.regs.orig_rax = SYS_open ∧ classifyPath e.pathWindow = true
  · by_cases hfull : s.monitor.length = 16
    · rw [iterate_open_full _ s e h2.1 h2.2 hfull, iterate_open_full _ s e h2.1 h2.2 hfull]
    · rw [iterate_open _ s e h2.1 h2.2 hfull, iterate_open _ s e h2.1 h2.2 hfull]
      exact hfin 0 0 true s.monitor
  by_cases h3 : e.regs.orig_rax = SYS_close
  · rw [iterate_close _ s e h3, iterate_close _ s e h3]
    exact hfin 0 0 false _
  by_cases h4 : e.regs.orig_rax = SYS_read ∧ toInt32 e.regs.rdi ∈ s.monitor
  · rw [iterate_read_mem _ s e h4.1 h4.2, iterate_read_mem _ s e h4.1 h4.2]
    exact hfin e.regs.rsi e.regs.rdx false s.monitor
  by_cases h5 : e.regs.orig_rax = SYS_getrandom
  · rw [iterate_getrandom _ s e h5, iterate_getrandom _ s e h5]
    exact hfin e.regs.rdi e.regs.rsi false s.monitor
  · rw [iterate_other _ s e h1 h2 h3 h4 h5, iterate_other _ s e h1 h2 h3 h4 h5]
    exact hfin 0 0 false s.monitor

/-! ### NUL-terminated path comparison -/

theorem take_nulterm (junk : List Nat) :
    ∀ (t s : List Nat), (0 : Nat) ∉ s → (0 : Nat) ∉ t →
      (((s ++ 0 :: junk).take (t.length + 1) = t ++ [0]) ↔ s = t) := by
  intro t
  induction t with
  | nil =>
    intro s hs _
    cases s with
    | nil => simp
    | cons a s2 =>
      have ha : a ≠ 0 := fun h0 => hs (h0 ▸ List.mem_cons_self a s2)
      simp [ha]
  | cons b t2 ih =>
    intro s hs ht
    have hb : b ≠ 0 := fun h0 => ht (h0 ▸ List.mem_cons_self b t2)
    have ht2 : (0 : Nat) ∉ t2 := fun h0 => ht (List.mem_cons_of_mem b h0)
    cases s with
    | nil =>
      simp only [List.nil_append, List.length_cons, List.take_succ_cons,
        List.cons_append, List.cons.injEq]
      constructor
      · rintro ⟨h0, _⟩
        exact absurd h0.symm hb
      · intro h0
        exact absurd h0 (by simp)
    | cons a s2 =>
      have hs2 : (0 : Nat) ∉ s2 := fun h0 => hs (List.mem_cons_of_mem a h0)
      simp only [List.cons_append, List.length_cons, List.take_succ_cons,
        List.cons.injEq]
      rw [ih s2 hs2 ht2]

/-! ### Agreement of the DJB and IETF keystreams on zero nonces -/

set_option maxRecDepth 4000 in
theorem chachaInit_agree (key : List Nat) (c : Nat) (hc : c < M32) :
    chachaInit key nonce c = chachaInitIETF key (List.replicate 12 0) c := by
  unfold chachaInit chachaInitIETF nonce chacha20_NONCEBYTES
  have h8 : (List.range 2).map (leWord (List.replicate 8 0)) = [0, 0] := by decide
  have h12 : (List.range 3).map (leWord (List.replicate 12 0)) = [0, 0, 0] := by decide
  rw [h8, h12]
  have hdiv : c / M32 % M32 = 0 := by
    have h0 : c / M32 = 0 := Nat.div_eq_of_lt hc
    simp [h0]
  rw [hdiv]
  simp

theorem stream_agree (clen : Nat) (key : List Nat) (h : clen ≤ 137438953472) :
    crypto_stream_chacha20 clen nonce key =
      chacha20_ietf_stream clen (List.replicate 12 0) key := by
  unfold crypto_stream_chacha20 chacha20_ietf_stream
  have hmap : (List.range (clen / 64 + 1)).map (chachaBlock key nonce) =
      (List.range (clen / 64 + 1)).map (chachaBlockIETF key (List.replicate 12 0)) := by
    apply List.map_congr_left
    intro i hi
    have hlt : i < clen / 64 + 1 := List.mem_range.mp hi
    have hdiv : clen / 64 ≤ 137438953472 / 64 := Nat.div_le_div_right h
    have hc : i < M32 := by
      unfold M32
      omega
    unfold chachaBlock chachaBlockIETF
    rw [chachaInit_agree key i hc]
  rw [hmap]

/-! ### Claims -/

set_option maxRecDepth 100000

/-- Claim C1, counterexample: with a zero key, two consecutive getrandom
calls of 16 bytes each both receive keystream bytes 0..15, so the
concatenation of delivered buffers differs from the single 32-byte keystream
head the claim requires. -/
theorem c1_counterexample :
    deliveredBytes (runEffects (run cfg0 s0 [evGetrandom 4096 16, evGetrandom 4096 16])) ≠
      crypto_stream_chacha20 32 nonce cfg0.key := by
  decide

/-- Claim C1, amended: the keystream is restarted at offset 0 on every call
(src/keyed.c line 292 invokes crypto_stream_chacha20 with no running offset),
so across a run the concatenation of delivered buffers equals the
concatenation of per-request keystream heads — each substituted buffer is the
first bytes of the stream of its own length — not a single contiguous prefix
of total length the sum of the requests. -/
theorem c1_delivered_restart (cfg : Config) (s : EngineState)
    (events : List SyscallEvent) :
    deliveredBytes (runEffects (run cfg s events)) =
      (((runEffects (run cfg s events)).filterMap (fun eff => eff.write)).map
        (fun w => crypto_stream_chacha20 w.2.length nonce cfg.key)).flatten := by
  unfold deliveredBytes
  congr 1
  apply List.map_congr_left
  intro w hw
  obtain ⟨eff, heff, hwr⟩ := List.mem_filterMap.mp hw
  rcases run_writes cfg events s eff heff with hnone | ⟨d, n, hsome, hn⟩
  · rw [hnone] at hwr
    exact Option.noConfusion hwr
  · rw [hsome] at hwr
    injection hwr with hww
    rw [← hww, length_crypto_stream]

/-- Claim C2, counterexample: the nonce of src/keyed.c line 290 has
crypto_stream_chacha20_NONCEBYTES = 8 zero bytes, not twelve. -/
theorem c2_counterexample : nonce ≠ List.replicate 12 0 := by
  decide

/-- Claim C2, amended: every substitution fills the buffer from
crypto_stream_chacha20 under the derived key and a nonce of eight zero bytes
(the original DJB ChaCha20 variant); for any request of at most 2^37 bytes
this keystream coincides with the IETF ChaCha20 keystream under a
twelve-zero-byte nonce. -/
theorem c2_nonce_eight_zero (cfg : Config) (s : EngineState) (e : SyscallEvent)
    (h : 0 < reqSize s e) :
    nonce = List.replicate 8 0 ∧
    iterate cfg s e = .ok
      { monitor := s.monitor,
        buflen := if s.buflen < reqSize s e then reqSize s e else s.buflen }
      { entryPoke := some { e.regs with orig_rax := 18446744073709551615 },
        write := some (reqDest s e, crypto_stream_chacha20 (reqSize s e) nonce cfg.key),
        raxPokes := [reqSize s e] } ∧
    (reqSize s e ≤ 137438953472 →
      crypto_stream_chacha20 (reqSize s e) nonce cfg.key =
        chacha20_ietf_stream (reqSize s e) (List.replicate 12 0) cfg.key) :=
  ⟨by decide, iterate_substitutes cfg s e h,
    fun hb => stream_agree (reqSize s e) cfg.key hb⟩

/-- Claim C2, witness at a concrete getrandom request of 16 bytes. -/
theorem c2_nonce_eight_zero_witness :
    0 < reqSize s0 (evGetrandom 4096 16) ∧
    (nonce = List.replicate 8 0 ∧
      iterate cfg0 s0 (evGetrandom 4096 16) = .ok
        { monitor := s0.monitor,
          buflen := if s0.buflen < reqSize s0 (evGetrandom 4096 16)
            then reqSize s0 (evGetrandom 4096 16) else s0.buflen }
        { entryPoke := some { (evGetrandom 4096 16).regs with
            orig_rax := 18446744073709551615 },
          write := some (reqDest s0 (evGetrandom 4096 16),
            crypto_stream_chacha20 (reqSize s0 (evGetrandom 4096 16)) nonce cfg0.key),
          raxPokes := [reqSize s0 (evGetrandom 4096 16)] } ∧
      (reqSize s0 (evGetrandom 4096 16) ≤ 137438953472 →
        crypto_stream_chacha20 (reqSize s0 (evGetrandom 4096 16)) nonce cfg0.key =
          chacha20_ietf_stream (reqSize s0 (evGetrandom 4096 16))
            (List.replicate 12 0) cfg0.key)) :=
  ⟨by decide, c2_nonce_eight_zero cfg0 s0 (evGetrandom 4096 16) (by decide)⟩

/-- Claim C3: for every intercepted entropy request of positive size — a read
on a monitored descriptor or any getrandom — the engine writes exactly size
keystream bytes to the recorded destination, overwrites the return-value
register with size, and leaves the monitor set unchanged. -/
theorem c3_full_substitution (cfg : Config) (s : EngineState) (e : SyscallEvent)
    (h : 0 < reqSize s e) :
    ∃ s1 : EngineState, iterate cfg s e = .ok s1
      { entryPoke := some { e.regs with orig_rax := 18446744073709551615 },
        write := some (reqDest s e, crypto_stream_chacha20 (reqSize s e) nonce cfg.key),
        raxPokes := [reqSize s e] } ∧
      (crypto_stream_chacha20 (reqSize s e) nonce cfg.key).length = reqSize s e ∧
      s1.monitor = s.monitor :=
  ⟨_, iterate_substitutes cfg s e h, length_crypto_stream _ _ _, rfl⟩

/-- Claim C3, witness at a concrete monitored read of 8 bytes. -/
theorem c3_full_substitution_witness :
    0 < reqSize { monitor := [3], buflen := 0 } (evRead 3 8192 8) ∧
    ∃ s1 : EngineState,
      iterate cfg0 { monitor := [3], buflen := 0 } (evRead 3 8192 8) = .ok s1
        { entryPoke := some { (evRead 3 8192 8).regs with
            orig_rax := 18446744073709551615 },
          write := some (reqDest { monitor := [3], buflen := 0 } (evRead 3 8192 8),
            crypto_stream_chacha20
              (reqSize { monitor := [3], buflen := 0 } (evRead 3 8192 8)) nonce cfg0.key),
          raxPokes := [reqSize { monitor := [3], buflen := 0 } (evRead 3 8192 8)] } ∧
        (crypto_stream_chacha20
          (reqSize { monitor := [3], buflen := 0 } (evRead 3 8192 8)) nonce
            cfg0.key).length =
          reqSize { monitor := [3], buflen := 0 } (evRead 3 8192 8) ∧
        s1.monitor = ({ monitor := [3], buflen := 0 } : EngineState).monitor :=
  ⟨by decide, c3_full_substitution cfg0 { monitor := [3], buflen := 0 }
    (evRead 3 8192 8) (by decide)⟩

/-- Claim C4: whenever a positive-size entropy request is classified at the
entry stop, the engine pokes the syscall-number register to the all-ones
64-bit pattern (the C value -1), so the number the kernel sees differs from
the original read or getrandom number and the original syscall never
executes. -/
theorem c4_disarm (cfg : Config) (s : EngineState) (e : SyscallEvent)
    (h : 0 < reqSize s e) :
    ∃ s1 eff, iterate cfg s e = .ok s1 eff ∧
      eff.entryPoke = some { e.regs with orig_rax := 18446744073709551615 } ∧
      kernelNr e.regs eff = 18446744073709551615 ∧
      kernelNr e.regs eff ≠ e.regs.orig_rax := by
  refine ⟨_, _, iterate_substitutes cfg s e h, rfl, rfl, ?_⟩
  rcases reqSize_pos_cases s e h with ⟨h1, _, _⟩ | ⟨h1, _, _, _⟩
  · simp [kernelNr, h1, SYS_getrandom]
  · simp [kernelNr, h1, SYS_read]

/-- Claim C4, witness at a concrete getrandom request of 32 bytes. -/
theorem c4_disarm_witness :
    0 < reqSize s0 (evGetrandom 4096 32) ∧
    ∃ s1 eff, iterate cfg0 s0 (evGetrandom 4096 32) = .ok s1 eff ∧
      eff.entryPoke = some { (evGetrandom 4096 32).regs with
        orig_rax := 18446744073709551615 } ∧
      kernelNr (evGetrandom 4096 32).regs eff = 18446744073709551615 ∧
      kernelNr (evGetrandom 4096 32).regs eff ≠ (evGetrandom 4096 32).regs.orig_rax :=
  ⟨by decide, c4_disarm cfg0 s0 (evGetrandom 4096 32) (by decide)⟩

/-- Claim C5, counterexample: after two failing opens of /dev/urandom (both
returning -2 and both inserted into M) followed by a close of -2 (which
removes only one copy), a read of fd -2 is still intercepted, although a
close of that descriptor has been observed after every tracked open that
returned it. -/
theorem c5_counterexample :
    interceptedAfter cfg0 s0 cex5Events (evRead 18446744073709551614 8192 8) = true ∧
    trackedNoClose cex5Events (-2) = false ∧
    toInt32 (evRead 18446744073709551614 8192 8).regs.rdi = -2 ∧
    (evRead 18446744073709551614 8192 8).regs.rdx = 8 := by
  decide

/-- Claim C5, amended: provided every tracked open returns a descriptor not
currently in M (FreshRun — true of every successful open, and violated only
by repeated failing opens, which the engine also tracks), a nonzero read is
intercepted iff its descriptor is in M, and membership in M holds iff some
tracked open returned the descriptor with no close of it observed since. -/
theorem c5_tracking_sound (cfg : Config) (events : List SyscallEvent)
    (s1 : EngineState) (effs : List Effects) (r : SyscallEvent) (fd : Int)
    (hrun : run cfg s0 events = .ok s1 effs)
    (hfresh : FreshRun cfg s0 events)
    (hr : r.regs.orig_rax = SYS_read)
    (hfd : toInt32 r.regs.rdi = fd)
    (hsz : r.regs.rdx ≠ 0) :
    (interceptedNext cfg s1 r = true ↔ fd ∈ s1.monitor) ∧
    (fd ∈ s1.monitor ↔ trackedNoClose events fd = true) := by
  have hmem := (run_monitor_mem cfg events s0 s1 effs (by simp [s0]) hfresh hrun).2 fd
  constructor
  · rw [interceptedNext_read cfg s1 r hr, hfd]
    exact ⟨fun hx => hx.1, fun hx => ⟨hx, hsz⟩⟩
  · rw [hmem]
    simp [s0]

/-- Claim C5, witness: one successful tracked open of /dev/urandom returning
fd 3, then a read of 8 bytes on fd 3. -/
theorem c5_tracking_sound_witness :
    FreshRun cfg0 s0 [evOpen (devUrandomBytes ++ [0]) 3] ∧
    run cfg0 s0 [evOpen (devUrandomBytes ++ [0]) 3] =
      .ok { monitor := [3], buflen := 0 }
        [{ entryPoke := none, write := none, raxPokes := [] }] ∧
    ((interceptedNext cfg0 { monitor := [3], buflen := 0 } (evRead 3 8192 8) = true ↔
        (3 : Int) ∈ ({ monitor := [3], buflen := 0 } : EngineState).monitor) ∧
      ((3 : Int) ∈ ({ monitor := [3], buflen := 0 } : EngineState).monitor ↔
        trackedNoClose [evOpen (devUrandomBytes ++ [0]) 3] 3 = true)) := by
  have hit : iterate cfg0 s0 (evOpen (devUrandomBytes ++ [0]) 3) =
      .ok { monitor := [3], buflen := 0 }
        { entryPoke := none, write := none, raxPokes := [] } := by decide
  have hfresh : FreshRun cfg0 s0 [evOpen (devUrandomBytes ++ [0]) 3] := by
    simp only [FreshRun, hit]
    exact ⟨fun _ => by simp [s0], trivial⟩
  have hrun : run cfg0 s0 [evOpen (devUrandomBytes ++ [0]) 3] =
      .ok { monitor := [3], buflen := 0 }
        [{ entryPoke := none, write := none, raxPokes := [] }] := by decide
  exact ⟨hfresh, hrun, c5_tracking_sound cfg0 _ _ _ (evRead 3 8192 8) 3 hrun hfresh
    rfl (by decide) (by decide)⟩

/-- Claim C6, counterexample: a failing open of /dev/urandom with return
value -2 leaves -2 in the monitored set — a negative error return is
inserted. -/
theorem c6_counterexample :
    monitorAfter cfg0 s0 [evOpenFail] = [(-2 : Int)] ∧ (-2 : Int) < 0 := by
  decide

/-- Claim C6, amended: at the exit stop of a tracked open the engine reads
rax and appends its int value to M unconditionally — negative error returns
included; the nonnegativity check the claim describes is absent from the
source (spec section 9 records this). -/
theorem c6_insert_unconditional (cfg : Config) (s : EngineState) (e : SyscallEvent)
    (ho : e.regs.orig_rax = SYS_open) (hp : classifyPath e.pathWindow = true)
    (hlen : ¬s.monitor.length = 16) :
    iterate cfg s e = .ok
      { monitor := s.monitor ++ [toInt32 e.exitRax], buflen := s.buflen }
      { entryPoke := none, write := none, raxPokes := [] } := by
  rw [iterate_open cfg s e ho hp hlen, finish_eq]
  simp [ho, SYS_open, SYS_getpid]

/-- Claim C6, witness at the concrete failing open. -/
theorem c6_insert_unconditional_witness :
    (evOpenFail.regs.orig_rax = SYS_open ∧ classifyPath evOpenFail.pathWindow = true ∧
      ¬s0.monitor.length = 16) ∧
    iterate cfg0 s0 evOpenFail = .ok
      { monitor := s0.monitor ++ [toInt32 evOpenFail.exitRax], buflen := s0.buflen }
      { entryPoke := none, write := none, raxPokes := [] } :=
  ⟨⟨rfl, by decide, by decide⟩,
    c6_insert_unconditional cfg0 s0 evOpenFail rfl (by decide) (by decide)⟩

/-- Claim C7: the 13-byte window comparison sets capture_fd exactly for the
NUL-terminated strings /dev/random and /dev/urandom, rejecting every other
path including proper extensions, for any junk bytes after the
terminating NUL. -/
theorem c7_path_exact (s junk : List Nat) (hs : (0 : Nat) ∉ s) :
    classifyPath ((s ++ 0 :: junk).take 13) = true ↔
      (s = devRandomBytes ∨ s = devUrandomBytes) := by
  have h1 : ((s ++ 0 :: junk).take 13).take 12 = (s ++ 0 :: junk).take 12 := by
    rw [List.take_take]
    norm_num
  have h2 : ((s ++ 0 :: junk).take 13).take 13 = (s ++ 0 :: junk).take 13 := by
    rw [List.take_take]
    norm_num
  unfold classifyPath
  rw [h1, h2]
  simp only [Bool.or_eq_true, beq_iff_eq]
  have hA := take_nulterm junk devRandomBytes s hs (by decide)
  have hB := take_nulterm junk devUrandomBytes s hs (by decide)
  rw [show devRandomBytes.length + 1 = 12 from rfl] at hA
  rw [show devUrandomBytes.length + 1 = 13 from rfl] at hB
  exact or_congr hA hB

/-- Claim C7, witness: the exact name /dev/urandom is accepted, for an
arbitrary concrete junk suffix. -/
theorem c7_path_exact_witness :
    ((0 : Nat) ∉ devUrandomBytes) ∧
    (classifyPath ((devUrandomBytes ++ 0 :: [88, 89]).take 13) = true ↔
      (devUrandomBytes = devRandomBytes ∨ devUrandomBytes = devUrandomBytes)) :=
  ⟨by decide, c7_path_exact devUrandomBytes [88, 89] (by decide)⟩

/-- Claim C8: starting from the empty monitored set, every trace the loop
completes without aborting leaves at most 16 monitored descriptors: the
entry-stop fatal check guards the unconditional insertion at the exit stop. -/
theorem c8_monitor_bounded (cfg : Config) (events : List SyscallEvent)
    (s1 : EngineState) (effs : List Effects)
    (h : run cfg s0 events = .ok s1 effs) :
    s1.monitor.length ≤ 16 :=
  run_monitor_le cfg events s0 s1 effs (by simp [s0]) h

/-- Claim C8, witness after a concrete tracked open. -/
theorem c8_monitor_bounded_witness :
    run cfg0 s0 [evOpen (devUrandomBytes ++ [0]) 4] =
      .ok { monitor := [4], buflen := 0 }
        [{ entryPoke := none, write := none, raxPokes := [] }] ∧
    ({ monitor := [(4 : Int)], buflen := 0 } : EngineState).monitor.length ≤ 16 := by
  have hrun : run cfg0 s0 [evOpen (devUrandomBytes ++ [0]) 4] =
      .ok { monitor := [4], buflen := 0 }
        [{ entryPoke := none, write := none, raxPokes := [] }] := by decide
  exact ⟨hrun, c8_monitor_bounded cfg0 [evOpen (devUrandomBytes ++ [0]) 4] _ _ hrun⟩

/-- Claim C9: the -p option with no attached argument configures fake pid 2;
when forgery is enabled (fake_pid different from -1) every getpid call has
its return-value register poked to the configured value and nothing else
changes; and on any syscall other than getpid the engine behaves identically
whether or not a fake pid is configured. -/
theorem c9_getpid_forgery :
    fakePidArg none = 2 ∧
    (∀ (cfg : Config) (s : EngineState) (e : SyscallEvent),
      e.regs.orig_rax = SYS_getpid → cfg.fake_pid ≠ -1 →
      iterate cfg s e = .ok s
        { entryPoke := none, write := none, raxPokes := [toU64 cfg.fake_pid] }) ∧
    (∀ (key : List Nat) (p : Int) (s : EngineState) (e : SyscallEvent),
      ¬e.regs.orig_rax = SYS_getpid →
      iterate { key := key, fake_pid := p } s e =
        iterate { key := key, fake_pid := (-1 : Int) } s e) :=
  ⟨rfl, iterate_getpid, iterate_fakePid_irrel⟩

/-- Claim C9, witness: a concrete getpid call under -p 2, and a concrete
write call unaffected by the configured fake pid. -/
theorem c9_getpid_forgery_witness :
    (evGetpid.regs.orig_rax = SYS_getpid ∧ cfgP.fake_pid ≠ -1 ∧
      ¬(evWrite 100 4).regs.orig_rax = SYS_getpid) ∧
    iterate cfgP s0 evGetpid = .ok s0
      { entryPoke := none, write := none, raxPokes := [toU64 cfgP.fake_pid] } ∧
    iterate { key := key0, fake_pid := (5 : Int) } s0 (evWrite 100 4) =
      iterate { key := key0, fake_pid := (-1 : Int) } s0 (evWrite 100 4) :=
  ⟨⟨rfl, by decide, by decide⟩,
    c9_getpid_forgery.2.1 cfgP s0 evGetpid rfl (by decide),
    c9_getpid_forgery.2.2 key0 5 s0 (evWrite 100 4) (by decide)⟩

/-- Claim C10: a zero-size entropy request — getrandom with count 0, or a
read of 0 bytes on a monitored descriptor — produces no action: no syscall
disarm, no write into the child, no return-value overwrite, and an unchanged
engine state, so the syscall executes natively. -/
theorem c10_zero_request_noop (cfg : Config) (s : EngineState) (e : SyscallEvent)
    (h : (e.regs.orig_rax = SYS_getrandom ∧ e.regs.rsi = 0) ∨
      (e.regs.orig_rax = SYS_read ∧ toInt32 e.regs.rdi ∈ s.monitor ∧ e.regs.rdx = 0)) :
    iterate cfg s e = .ok s { entryPoke := none, write := none, raxPokes := [] } :=
  iterate_zero_request cfg s e h

/-- Claim C10, witness at a concrete zero-byte getrandom. -/
theorem c10_zero_request_noop_witness :
    ((evGetrandom 4096 0).regs.orig_rax = SYS_getrandom ∧
      (evGetrandom 4096 0).regs.rsi = 0) ∧
    iterate cfg0 s0 (evGetrandom 4096 0) =
      .ok s0 { entryPoke := none, write := none, raxPokes := [] } :=
  ⟨⟨rfl, rfl⟩, c10_zero_request_noop cfg0 s0 (evGetrandom 4096 0) (Or.inl ⟨rfl, rfl⟩)⟩

end Keyed
